import Mathlib

/-
Verification of the mDNS reflector core (Go sources: reflector/reflector.go,
the reflector dedup cache, main.go) against its specification.

The Go code is shallowly embedded:
  * the dedup cache map[uint64]time.Time becomes a function Nat → Option Nat
    (key → absolute expiry, in nanoseconds, matching Go time arithmetic);
  * hash/fnv New64a streaming writes become FNV-64a over the concatenated
    byte list, with 64-bit overflow made explicit via % 2^64;
  * network effects (interface resolution, multicast join, UDP writes) become
    explicit environments/oracles and lists of performed calls;
  * context cancellation becomes boolean observations at exactly the program
    points where ctx.Done() is polled.
-/

namespace MDNSReflector

/- ===== Dedup cache (dedup.go) ===== -/

/-- fnv.New64a offset basis (hash/fnv). -/
def fnvOffsetBasis : Nat := 14695981039346656037

/-- fnv.New64a prime (hash/fnv). -/
def fnvPrime : Nat := 1099511628211

/-- 2^64, the modulus of Go uint64 arithmetic. -/
def two64 : Nat := 2 ^ 64

/-- One step of FNV-64a: XOR in the byte, multiply by the prime, mod 2^64. -/
def fnvStep (h b : Nat) : Nat := ((h ^^^ b) * fnvPrime) % two64

/-- FNV-64a over a byte list: h.Write data then h.Sum64 in Go. -/
def fnv64a (data : List Nat) : Nat := data.foldl fnvStep fnvOffsetBasis

/-- dedupWindow = 1 * time.Second, in nanoseconds. -/
def dedupWindow : Nat := 1000000000

/-- cleanupInterval = 10 * time.Second, in nanoseconds. -/
def cleanupInterval : Nat := 10000000000

/-- The entries field of dedupCache: map[uint64]time.Time. -/
abbrev DedupCache := Nat → Option Nat

/-- newDedupCache: the empty entries map. -/
def emptyCache : DedupCache := fun _ => none

/-- entries[key] = v in Go. -/
def cacheInsert (st : DedupCache) (key v : Nat) : DedupCache :=
  fun k => if k = key then some v else st k

/-- The key computed by isDuplicate: h.Write([]byte(srcIface)); h.Write(packet);
h.Sum64() — FNV-64a of the concatenation with no separator. -/
def dedupKey (srcIface packet : List Nat) : Nat := fnv64a (srcIface ++ packet)

/-- dedupCache.isDuplicate: returns the boolean result and the updated entries
map. If the key is present and now is before its expiry, report a duplicate
and leave the map untouched; otherwise record expiry now + dedupWindow and
report fresh. -/
def isDuplicate (st : DedupCache) (now : Nat) (srcIface packet : List Nat) :
    Bool × DedupCache :=
  let key := dedupKey srcIface packet
  match st key with
  | some expireAt =>
      if now < expireAt then (true, st)
      else (false, cacheInsert st key (now + dedupWindow))
  | none => (false, cacheInsert st key (now + dedupWindow))

/-- dedupCache.cleanup: delete every entry whose expiry is strictly before now
(Go: now.After(expireAt)). -/
def cleanup (now : Nat) (st : DedupCache) : DedupCache :=
  fun k =>
    match st k with
    | some expireAt => if expireAt < now then none else some expireAt
    | none => none

/- ===== Byte-list encoding of numbers (for the FNV pigeonhole argument) ===== -/

/-- The k low base-256 digits of n, least significant first: an encoding of
numbers below 256^k as byte lists of length k. -/
def byteExpand : Nat → Nat → List Nat
  | 0, _ => []
  | k + 1, n => n % 256 :: byteExpand k (n / 256)

/-- Reassemble a byte list into the number it encodes. -/
def byteAssemble (l : List Nat) : Nat := l.foldr (fun b acc => b + 256 * acc) 0

/- ===== Reflector construction (reflector.go NewReflector) ===== -/

/-- The net.Interface facts NewReflector reads: FlagUp and FlagMulticast. -/
structure IfaceInfo where
  up : Bool
  multicast : Bool
deriving DecidableEq

/-- The error cases of NewReflector (each a distinct fmt.Errorf). -/
inductive ConfigError where
  | notFound (name : String)
  | ifaceDown (name : String)
  | noMulticast (name : String)
  | tooFew (count : Nat)
deriving DecidableEq

/-- The NewReflector loop over ifaceNames: resolve each name via
net.InterfaceByName (the environment), reject down or non-multicast
interfaces, and accumulate r.interfaces in order. -/
def resolveIfaces (env : String → Option IfaceInfo) :
    List String → Except ConfigError (List String)
  | [] => Except.ok []
  | name :: rest =>
    match env name with
    | none => Except.error (ConfigError.notFound name)
    | some info =>
      if info.up = false then Except.error (ConfigError.ifaceDown name)
      else if info.multicast = false then
        Except.error (ConfigError.noMulticast name)
      else
        match resolveIfaces env rest with
        | Except.error e => Except.error e
        | Except.ok tail => Except.ok (name :: tail)

/-- The Reflector state NewReflector builds: the validated interface list and
the conns map, which construction leaves empty (no socket is opened before
Start). -/
structure Reflector where
  interfaces : List String
  conns : List String
deriving DecidableEq

/-- NewReflector: resolve all names, then require at least 2 resolved
interfaces, counted with multiplicity (Go: len(r.interfaces) < 2). -/
def NewReflector (env : String → Option IfaceInfo) (names : List String) :
    Except ConfigError Reflector :=
  match resolveIfaces env names with
  | Except.error e => Except.error e
  | Except.ok ifs =>
    if ifs.length < 2 then Except.error (ConfigError.tooFew ifs.length)
    else Except.ok { interfaces := ifs, conns := [] }

/-- One interface name passes NewReflector validation: it resolves, is up,
and supports multicast. -/
def validIfaceB (env : String → Option IfaceInfo) (name : String) : Bool :=
  match env name with
  | some info => info.up && info.multicast
  | none => false

/-- Whether an Except is a success. -/
def exceptIsOk {ε α : Type} : Except ε α → Bool
  | Except.ok _ => true
  | Except.error _ => false

/-- A concrete resolution environment: interfaces "a" and "b" exist, are up
and multicast-capable; nothing else resolves. -/
def env0 : String → Option IfaceInfo := fun n =>
  if n = "a" ∨ n = "b" then some { up := true, multicast := true } else none

/- ===== Startup (reflector.go Start / joinMulticast / Stop) ===== -/

/-- How joinMulticast can go for one interface: success, ListenMulticastUDP
failing (no socket left), or SetReadBuffer failing (joinMulticast closes the
socket it just opened). -/
inductive JoinOutcome where
  | ok
  | listenFail
  | bufferFail
deriving DecidableEq

/-- The observable outcome of a Start attempt. Sockets are identified by
their creation index within the attempt; conns is the name-keyed map
r.conns, opened lists every socket ListenMulticastUDP returned, closed every
socket that was closed before Start returned. -/
structure StartResult where
  conns : List (String × Nat)
  opened : List Nat
  closed : List Nat
  startError : Option String
deriving DecidableEq

/-- Go's r.conns[name] = sock on the name-keyed map: overwrite the existing
binding for name if there is one, otherwise add a new binding. -/
def mapInsert (m : List (String × Nat)) (name : String) (sock : Nat) :
    List (String × Nat) :=
  match m with
  | [] => [(name, sock)]
  | (k, v) :: rest =>
      if k = name then (name, sock) :: rest
      else (k, v) :: mapInsert rest name sock

/-- The Start loop: join each interface in order, storing each new socket in
the name-keyed conns map (overwriting on a repeated name); on the first
failure, return the error after Stop has closed every socket still in the
map and reset the map to empty. A bufferFail interface closes its own
socket inside joinMulticast before Stop runs; a socket that was overwritten
in the map is closed by nobody. -/
def startGo (join : String → JoinOutcome) (conns : List (String × Nat))
    (opened : List Nat) (next : Nat) : List String → StartResult
  | [] => { conns := conns, opened := opened, closed := [], startError := none }
  | name :: rest =>
    match join name with
    | JoinOutcome.ok =>
        startGo join (mapInsert conns name next) (opened ++ [next])
          (next + 1) rest
    | JoinOutcome.listenFail =>
        { conns := [], opened := opened, closed := conns.map Prod.snd,
          startError := some name }
    | JoinOutcome.bufferFail =>
        { conns := [], opened := opened ++ [next],
          closed := next :: conns.map Prod.snd, startError := some name }

/-- Reflector.Start, beginning from the empty conns map NewReflector left. -/
def startReflector (join : String → JoinOutcome) (ifaces : List String) :
    StartResult :=
  startGo join [] [] 0 ifaces

/-- A concrete join environment: interface "a" joins fine, every other
interface fails at ListenMulticastUDP. -/
def join0 : String → JoinOutcome := fun n =>
  if n = "a" then JoinOutcome.ok else JoinOutcome.listenFail

/- ===== Reflection fan-out (reflector.go reflect) ===== -/

/-- How one WriteToUDP call can go: success; an error with the context still
live (logged, loop continues); or an error with the context cancelled
(reflect returns immediately). -/
inductive WriteOutcome where
  | ok
  | errLive
  | errCancelled
deriving DecidableEq

/-- A UDP destination address. -/
structure UDPAddr where
  ip : String
  port : Nat
deriving DecidableEq

/-- mdnsIPv4Addr = net.ParseIP("224.0.0.251"). -/
def mdnsIPv4Addr : String := "224.0.0.251"

/-- mdnsPort = 5353. -/
def mdnsPort : Nat := 5353

/-- The dstAddr reflect builds: the mDNS multicast address and port. -/
def dstAddr : UDPAddr := { ip := mdnsIPv4Addr, port := mdnsPort }

/-- One WriteToUDP call as performed by reflect: destination socket (keyed by
interface name), payload, and destination address. -/
structure WriteCall where
  dst : String
  payload : List Nat
  addr : UDPAddr
deriving DecidableEq

/-- The range loop of reflect over r.conns: skip the source interface;
otherwise perform the write; on a write error re-poll ctx.Done() — if
cancelled return at once, else log and continue. Returns the list of
WriteToUDP calls performed, in loop order. -/
def reflectGo (outcome : String → WriteOutcome) (srcIface : String)
    (packet : List Nat) : List String → List WriteCall
  | [] => []
  | name :: rest =>
    if name = srcIface then reflectGo outcome srcIface packet rest
    else
      match outcome name with
      | WriteOutcome.ok =>
          { dst := name, payload := packet, addr := dstAddr }
            :: reflectGo outcome srcIface packet rest
      | WriteOutcome.errLive =>
          { dst := name, payload := packet, addr := dstAddr }
            :: reflectGo outcome srcIface packet rest
      | WriteOutcome.errCancelled =>
          [{ dst := name, payload := packet, addr := dstAddr }]

/-- Reflector.reflect: poll ctx.Done() at entry — if cancellation has fired,
perform no writes; otherwise run the fan-out loop over the conns map. -/
def reflect (cancelledAtEntry : Bool) (outcome : String → WriteOutcome)
    (conns : List String) (srcIface : String) (packet : List Nat) :
    List WriteCall :=
  if cancelledAtEntry then [] else reflectGo outcome srcIface packet conns

/-- An outcome environment where the write to "B" fails (context live) and
every other write succeeds. -/
def outcomeB : String → WriteOutcome := fun n =>
  if n = "B" then WriteOutcome.errLive else WriteOutcome.ok

/- ===== Receive loop body (reflector.go receiveLoop) ===== -/

/-- What one ReadFromUDP call can return: a deadline timeout, net.ErrClosed,
another error, or n bytes of data. -/
inductive ReadResult where
  | timeout
  | closedErr
  | otherErr
  | dataRead (n : Nat) (packet : List Nat)

/-- What one iteration of the receive loop does with its packet: exit the
loop, continue without scheduling, or schedule a reflection of the packet. -/
inductive LoopAction where
  | exit
  | continueLoop
  | schedule (srcIface : String) (packet : List Nat)
deriving DecidableEq

/-- One iteration of the receive loop: poll ctx.Done() at loop-top (exit if
fired); read with a 1 s deadline — timeout continues, ErrClosed and other
errors exit; skip empty reads; re-poll ctx.Done() after the read (exit,
dropping the packet, if fired); consult the dedup cache (drop duplicates);
otherwise schedule the reflection. -/
def receiveStep (cancelledAtTop : Bool) (read : ReadResult)
    (cancelledAfterRead : Bool) (isDup : Bool) (ifaceName : String) :
    LoopAction :=
  if cancelledAtTop then LoopAction.exit
  else
    match read with
    | ReadResult.timeout => LoopAction.continueLoop
    | ReadResult.closedErr => LoopAction.exit
    | ReadResult.otherErr => LoopAction.exit
    | ReadResult.dataRead n packet =>
      if n = 0 then LoopAction.continueLoop
      else if cancelledAfterRead then LoopAction.exit
      else if isDup then LoopAction.continueLoop
      else LoopAction.schedule ifaceName packet

/- ===== Dedup cache lemmas ===== -/

/-- Unfolding isDuplicate when the fingerprint is already recorded. -/
theorem isDuplicate_some (st : DedupCache) (now : Nat) (iface pkt : List Nat)
    (e : Nat) (h : st (dedupKey iface pkt) = some e) :
    isDuplicate st now iface pkt =
      if now < e then (true, st)
      else (false, cacheInsert st (dedupKey iface pkt) (now + dedupWindow)) := by
  unfold isDuplicate
  simp only [h]

/-- Unfolding isDuplicate when the fingerprint is absent. -/
theorem isDuplicate_none (st : DedupCache) (now : Nat) (iface pkt : List Nat)
    (h : st (dedupKey iface pkt) = none) :
    isDuplicate st now iface pkt =
      (false, cacheInsert st (dedupKey iface pkt) (now + dedupWindow)) := by
  unfold isDuplicate
  simp only [h]

/-- C2: for every payload P and ingress interface I: the first isDuplicate
call on an unseen fingerprint returns false and records expiry t1 + 1s; a
second identical call at t2 before that expiry returns true and returns the
cache entirely unchanged; an identical call at t3 strictly after the window
returns false and re-records expiry t3 + 1s. -/
theorem isDuplicate_window (st : DedupCache) (iface pkt : List Nat)
    (t1 t2 t3 : Nat)
    (h0 : st (dedupKey iface pkt) = none)
    (h2 : t2 < t1 + dedupWindow)
    (h3 : t1 + dedupWindow < t3) :
    (isDuplicate st t1 iface pkt).1 = false ∧
    (isDuplicate st t1 iface pkt).2 (dedupKey iface pkt)
      = some (t1 + dedupWindow) ∧
    isDuplicate (isDuplicate st t1 iface pkt).2 t2 iface pkt
      = (true, (isDuplicate st t1 iface pkt).2) ∧
    (isDuplicate (isDuplicate st t1 iface pkt).2 t3 iface pkt).1 = false ∧
    (isDuplicate (isDuplicate st t1 iface pkt).2 t3 iface pkt).2
      (dedupKey iface pkt) = some (t3 + dedupWindow) := by
  have hins := isDuplicate_none st t1 iface pkt h0
  have hlook : (isDuplicate st t1 iface pkt).2 (dedupKey iface pkt)
      = some (t1 + dedupWindow) := by
    rw [hins]; simp [cacheInsert]
  have h3' : ¬ t3 < t1 + dedupWindow := Nat.lt_asymm h3
  refine ⟨by rw [hins], hlook, ?_, ?_, ?_⟩
  · rw [isDuplicate_some _ t2 iface pkt _ hlook]
    simp [h2]
  · rw [isDuplicate_some _ t3 iface pkt _ hlook]
    simp [h3']
  · rw [isDuplicate_some _ t3 iface pkt _ hlook]
    simp [h3', cacheInsert]

/-- C2 witness: concrete run with I = [97], P = [98], t1 = 0,
t2 = 0.5 s, t3 = 1.5 s. -/
theorem isDuplicate_window_witness :
    (isDuplicate emptyCache 0 [97] [98]).1 = false ∧
    (isDuplicate emptyCache 0 [97] [98]).2 (dedupKey [97] [98])
      = some (0 + dedupWindow) ∧
    isDuplicate (isDuplicate emptyCache 0 [97] [98]).2 500000000 [97] [98]
      = (true, (isDuplicate emptyCache 0 [97] [98]).2) ∧
    (isDuplicate (isDuplicate emptyCache 0 [97] [98]).2 1500000000
      [97] [98]).1 = false ∧
    (isDuplicate (isDuplicate emptyCache 0 [97] [98]).2 1500000000
      [97] [98]).2 (dedupKey [97] [98]) = some (1500000000 + dedupWindow) :=
  isDuplicate_window emptyCache [97] [98] 0 500000000 1500000000
    rfl (by decide) (by decide)

/-- C7: after one cleanup run at time now, every entry whose expiry has passed
(expireAt < now) is absent, and every entry whose expiry has not passed is
still present with its expiry unchanged. -/
theorem cleanup_spec (st : DedupCache) (now k e : Nat)
    (h : st k = some e) :
    (e < now → cleanup now st k = none) ∧
    (¬ e < now → cleanup now st k = some e) := by
  constructor
  · intro hlt
    simp [cleanup, h, hlt]
  · intro hge
    simp [cleanup, h, hge]

/-- C7 witness: a cache with an expired entry (key 5, expiry 3) and a live
entry (key 7, expiry 10); after cleanup at time 6 the former is gone and the
latter is untouched. -/
theorem cleanup_spec_witness :
    cleanup 6 (cacheInsert (cacheInsert emptyCache 5 3) 7 10) 5 = none ∧
    cleanup 6 (cacheInsert (cacheInsert emptyCache 5 3) 7 10) 7 = some 10 :=
  ⟨(cleanup_spec (cacheInsert (cacheInsert emptyCache 5 3) 7 10) 6 5 3
      (by decide)).1 (by decide),
   (cleanup_spec (cacheInsert (cacheInsert emptyCache 5 3) 7 10) 6 7 10
      (by decide)).2 (by decide)⟩

/- ===== FNV-64a facts: range bound and existence of collisions ===== -/

/-- Folding fnvStep keeps the accumulator below 2^64. -/
theorem fnvFold_lt : ∀ (l : List Nat) (h : Nat), h < two64 →
    l.foldl fnvStep h < two64
  | [], _, hh => hh
  | b :: l, h, _ => by
      have hs : fnvStep h b < two64 :=
        Nat.mod_lt _ (by unfold two64; positivity)
      simpa [List.foldl] using fnvFold_lt l (fnvStep h b) hs

/-- fnv64a always lands below 2^64. -/
theorem fnv64a_lt (l : List Nat) : fnv64a l < two64 :=
  fnvFold_lt l fnvOffsetBasis (by decide)

/-- byteExpand is a section of byteAssemble below 256^k. -/
theorem byteAssemble_byteExpand : ∀ (k n : Nat), n < 256 ^ k →
    byteAssemble (byteExpand k n) = n
  | 0, n, h => by
      simp [byteExpand, byteAssemble]
      omega
  | k + 1, n, h => by
      have hdiv : n / 256 < 256 ^ k := by
        rw [Nat.div_lt_iff_lt_mul (by norm_num)]
        calc n < 256 ^ (k + 1) := h
          _ = 256 ^ k * 256 := by ring
      have ih := byteAssemble_byteExpand k (n / 256) hdiv
      simp only [byteExpand, byteAssemble, List.foldr] at ih ⊢
      rw [ih]
      omega

/-- Every digit produced by byteExpand is a byte. -/
theorem byteExpand_mem_lt : ∀ (k n : Nat), ∀ b ∈ byteExpand k n, b < 256
  | 0, _, _, hb => by simp [byteExpand] at hb
  | k + 1, n, b, hb => by
      simp only [byteExpand, List.mem_cons] at hb
      rcases hb with hb | hb
      · subst hb; exact Nat.mod_lt _ (by norm_num)
      · exact byteExpand_mem_lt k (n / 256) b hb

/-- By pigeonhole, FNV-64a has a collision between two distinct 9-byte lists:
2^72 inputs cannot map injectively into the 2^64 possible 64-bit hashes. -/
theorem fnv64a_collision :
    ∃ i1 i2 : List Nat, i1 ≠ i2 ∧ (∀ b ∈ i1, b < 256) ∧
      (∀ b ∈ i2, b < 256) ∧ fnv64a i1 = fnv64a i2 := by
  have hcard : Fintype.card (Fin two64) < Fintype.card (Fin (2 ^ 72)) := by
    rw [Fintype.card_fin, Fintype.card_fin]
    decide
  obtain ⟨x, y, hxy, hf⟩ := Fintype.exists_ne_map_eq_of_card_lt
    (fun z : Fin (2 ^ 72) =>
      (⟨fnv64a (byteExpand 9 z.val), fnv64a_lt _⟩ : Fin two64)) hcard
  have hx : x.val < 256 ^ 9 := by
    have h := x.isLt
    calc x.val < 2 ^ 72 := h
      _ = 256 ^ 9 := by norm_num
  have hy : y.val < 256 ^ 9 := by
    have h := y.isLt
    calc y.val < 2 ^ 72 := h
      _ = 256 ^ 9 := by norm_num
  refine ⟨byteExpand 9 x.val, byteExpand 9 y.val, ?_,
    byteExpand_mem_lt 9 x.val, byteExpand_mem_lt 9 y.val,
    congrArg Fin.val hf⟩
  intro he
  apply hxy
  apply Fin.ext
  rw [← byteAssemble_byteExpand 9 x.val hx,
    ← byteAssemble_byteExpand 9 y.val hy, he]

/-- C8 counterexample: the claim as stated — for all distinct byte-valid
interface names I1 ≠ I2 and payloads P, a prior isDuplicate(I1, P) call never
changes the result of a subsequent isDuplicate(I2, P) call — is false: the
fingerprint is a 64-bit FNV-64a hash, which has collisions across distinct
interface names, and a collision makes the second call report a duplicate. -/
theorem isDuplicate_cross_iface_counterexample :
    ¬ (∀ (i1 i2 p : List Nat), (∀ b ∈ i1, b < 256) → (∀ b ∈ i2, b < 256) →
        (∀ b ∈ p, b < 256) → i1 ≠ i2 →
        ∀ (st : DedupCache) (t1 t2 : Nat),
          (isDuplicate (isDuplicate st t1 i1 p).2 t2 i2 p).1
            = (isDuplicate st t2 i2 p).1) := by
  intro hclaim
  obtain ⟨i1, i2, hne, hb1, hb2, hcol⟩ := fnv64a_collision
  have h := hclaim i1 i2 [] hb1 hb2 (by simp) hne emptyCache 0 0
  have hkey : dedupKey i1 [] = dedupKey i2 [] := by
    unfold dedupKey
    rw [List.append_nil, List.append_nil]
    exact hcol
  have hrhs : (isDuplicate emptyCache 0 i2 []).1 = false := by
    rw [isDuplicate_none emptyCache 0 i2 [] rfl]
  have hins := isDuplicate_none emptyCache 0 i1 [] rfl
  have hlook : (isDuplicate emptyCache 0 i1 []).2 (dedupKey i2 [])
      = some (0 + dedupWindow) := by
    rw [hins, ← hkey]
    simp [cacheInsert]
  have hlhs : (isDuplicate (isDuplicate emptyCache 0 i1 []).2 0 i2 []).1
      = true := by
    rw [isDuplicate_some _ 0 i2 [] _ hlook,
      if_pos (by decide : (0 : Nat) < 0 + dedupWindow)]
  have hcontra : (true : Bool) = false := by rw [← hlhs, h, hrhs]
  exact absurd hcontra (by decide)

/-- C8 amended: independence of isDuplicate across interfaces holds whenever
the two (interface, payload) fingerprints differ — which for the FNV-64a
fingerprint is all but hash-colliding pairs: a prior call on I1 leaves the
result of a later call on I2 unchanged. -/
theorem isDuplicate_cross_iface (i1 i2 p : List Nat) (st : DedupCache)
    (t1 t2 : Nat) (hk : dedupKey i1 p ≠ dedupKey i2 p) :
    (isDuplicate (isDuplicate st t1 i1 p).2 t2 i2 p).1
      = (isDuplicate st t2 i2 p).1 := by
  have hpres : (isDuplicate st t1 i1 p).2 (dedupKey i2 p)
      = st (dedupKey i2 p) := by
    cases h : st (dedupKey i1 p) with
    | none =>
        rw [isDuplicate_none st t1 i1 p h]
        simp [cacheInsert, Ne.symm hk]
    | some e =>
        rw [isDuplicate_some st t1 i1 p e h]
        by_cases ht : t1 < e <;> simp [ht, cacheInsert, Ne.symm hk]
  cases h2 : st (dedupKey i2 p) with
  | none =>
      rw [isDuplicate_none _ t2 i2 p (hpres.trans h2),
        isDuplicate_none st t2 i2 p h2]
  | some e =>
      rw [isDuplicate_some _ t2 i2 p e (hpres.trans h2),
        isDuplicate_some st t2 i2 p e h2]
      by_cases ht : t2 < e <;> simp [ht]

/-- C8 amended witness: interfaces [97] and [98] with the empty payload have
different fingerprints, and the prior call on [97] leaves the [98] result
unchanged. -/
theorem isDuplicate_cross_iface_witness :
    (isDuplicate (isDuplicate emptyCache 0 [97] []).2 0 [98] []).1
      = (isDuplicate emptyCache 0 [98] []).1 :=
  isDuplicate_cross_iface [97] [98] [] emptyCache 0 0 (by decide)

/-- C10: the dedup fingerprint is FNV-64a of interface name ++ payload with no
separator, so the distinct pairs (interface "ab", payload "c") and
(interface "a", payload "bc") share a fingerprint: the first call on one is
fresh, and a call on the other within the window is reported as a duplicate. -/
theorem dedup_fingerprint_concat_collision :
    (([97, 98] : List Nat), ([99] : List Nat))
      ≠ (([97] : List Nat), ([98, 99] : List Nat)) ∧
    dedupKey [97, 98] [99] = dedupKey [97] [98, 99] ∧
    (isDuplicate emptyCache 0 [97] [98, 99]).1 = false ∧
    (isDuplicate (isDuplicate emptyCache 0 [97, 98] [99]).2 999999999
      [97] [98, 99]).1 = true := by
  have hkey : dedupKey [97, 98] [99] = dedupKey [97] [98, 99] := rfl
  refine ⟨by decide, hkey, rfl, ?_⟩
  have hins := isDuplicate_none emptyCache 0 [97, 98] [99] rfl
  have hlook : (isDuplicate emptyCache 0 [97, 98] [99]).2
      (dedupKey [97] [98, 99]) = some (0 + dedupWindow) := by
    rw [hins, ← hkey]
    simp [cacheInsert]
  rw [isDuplicate_some _ 999999999 [97] [98, 99] _ hlook,
    if_pos (by decide : (999999999 : Nat) < 0 + dedupWindow)]

/- ===== Construction theorems (C3, C9) ===== -/

/-- If every name validates, resolveIfaces returns the name list itself. -/
theorem resolveIfaces_ok_of_all_valid (env : String → Option IfaceInfo) :
    ∀ (names : List String), names.all (validIfaceB env) = true →
    resolveIfaces env names = Except.ok names
  | [], _ => rfl
  | name :: rest, hall => by
      rw [List.all_cons, Bool.and_eq_true] at hall
      obtain ⟨hname, hrest⟩ := hall
      have ih := resolveIfaces_ok_of_all_valid env rest hrest
      unfold validIfaceB at hname
      unfold resolveIfaces
      cases henv : env name with
      | none => rw [henv] at hname; exact absurd hname (by decide)
      | some info =>
          rw [henv] at hname
          rw [Bool.and_eq_true] at hname
          obtain ⟨hup, hmc⟩ := hname
          simp only [henv, hup, hmc, ih]
          simp

/-- If resolveIfaces succeeds, every name validated and the result is the
name list itself. -/
theorem resolveIfaces_all_valid_of_ok (env : String → Option IfaceInfo) :
    ∀ (names l : List String), resolveIfaces env names = Except.ok l →
    names.all (validIfaceB env) = true ∧ l = names
  | [], l, h => by
      unfold resolveIfaces at h
      exact ⟨rfl, (Except.ok.inj h).symm⟩
  | name :: rest, l, h => by
      unfold resolveIfaces at h
      cases henv : env name with
      | none =>
          simp only [henv] at h
          exact absurd h (by simp)
      | some info =>
          simp only [henv] at h
          by_cases hup : info.up = false
          · rw [if_pos hup] at h; exact absurd h (by simp)
          · rw [if_neg hup] at h
            by_cases hmc : info.multicast = false
            · rw [if_pos hmc] at h; exact absurd h (by simp)
            · rw [if_neg hmc] at h
              cases hres : resolveIfaces env rest with
              | error e => rw [hres] at h; exact absurd h (by simp)
              | ok tail =>
                  rw [hres] at h
                  obtain ⟨hall, htail⟩ :=
                    resolveIfaces_all_valid_of_ok env rest tail hres
                  refine ⟨?_, ?_⟩
                  · rw [List.all_cons, Bool.and_eq_true]
                    refine ⟨?_, hall⟩
                    unfold validIfaceB
                    rw [henv, Bool.and_eq_true]
                    exact ⟨by revert hup; cases info.up <;> simp,
                      by revert hmc; cases info.multicast <;> simp⟩
                  · rw [← Except.ok.inj h, htail]

/-- C3: NewReflector fails exactly when some configured name does not resolve
to an up, multicast-capable interface or the list has fewer than 2 entries;
otherwise it succeeds — and construction opens no socket: the conns map of
any constructed Reflector is empty. -/
theorem newReflector_spec (env : String → Option IfaceInfo)
    (names : List String) :
    (exceptIsOk (NewReflector env names) = true ↔
      (names.all (validIfaceB env) = true ∧ 2 ≤ names.length)) ∧
    (∀ r : Reflector, NewReflector env names = Except.ok r → r.conns = []) := by
  constructor
  · constructor
    · intro hok
      cases hres : resolveIfaces env names with
      | error e =>
          simp only [NewReflector, hres] at hok
          exact absurd hok (by simp [exceptIsOk])
      | ok l =>
          obtain ⟨hall, hl⟩ := resolveIfaces_all_valid_of_ok env names l hres
          subst hl
          simp only [NewReflector, hres] at hok
          by_cases hlen : l.length < 2
          · rw [if_pos hlen] at hok
            exact absurd hok (by simp [exceptIsOk])
          · exact ⟨hall, by omega⟩
    · rintro ⟨hall, hlen⟩
      have hlen2 : ¬ names.length < 2 := by omega
      simp only [NewReflector, resolveIfaces_ok_of_all_valid env names hall]
      rw [if_neg hlen2]
      rfl
  · intro r hr
    cases hres : resolveIfaces env names with
    | error e =>
        simp only [NewReflector, hres] at hr
        exact absurd hr (by simp)
    | ok l =>
        simp only [NewReflector, hres] at hr
        by_cases hlen : l.length < 2
        · rw [if_pos hlen] at hr
          exact absurd hr (by simp)
        · rw [if_neg hlen] at hr
          rw [← Except.ok.inj hr]

/-- C3 witness: under env0, the pair ["a", "b"] constructs (with an empty
conns map) and the singleton ["a"] is rejected. -/
theorem newReflector_spec_witness :
    exceptIsOk (NewReflector env0 ["a", "b"]) = true ∧
    exceptIsOk (NewReflector env0 ["a"]) = false ∧
    (∀ r : Reflector, NewReflector env0 ["a", "b"] = Except.ok r →
      r.conns = []) := by
  refine ⟨(newReflector_spec env0 ["a", "b"]).1.mpr ⟨by decide, by decide⟩,
    ?_, (newReflector_spec env0 ["a", "b"]).2⟩
  cases hb : exceptIsOk (NewReflector env0 ["a"]) with
  | false => rfl
  | true => exact absurd ((newReflector_spec env0 ["a"]).1.mp hb).2 (by decide)

/-- C9 counterexample: the list ["a", "a"] has no two distinct entries, yet
under env0 — where "a" is a valid interface — NewReflector succeeds: the
code counts entries with multiplicity (len < 2), never distinctness. -/
theorem newReflector_distinctness_counterexample :
    (∀ x ∈ (["a", "a"] : List String), x = "a") ∧
    NewReflector env0 ["a", "a"]
      = Except.ok { interfaces := ["a", "a"], conns := [] } := by
  refine ⟨by decide, ?_⟩
  have hres := resolveIfaces_ok_of_all_valid env0 ["a", "a"] (by decide)
  simp [NewReflector, hres]

/-- C9 amended: construction requires at least two entries counted with
multiplicity, not two distinct interfaces: any valid name listed twice
passes validation. -/
theorem newReflector_duplicate_name_ok (env : String → Option IfaceInfo)
    (name : String) (h : validIfaceB env name = true) :
    NewReflector env [name, name]
      = Except.ok { interfaces := [name, name], conns := [] } := by
  have hres := resolveIfaces_ok_of_all_valid env [name, name] (by simp [h])
  simp [NewReflector, hres]

/-- C9 amended witness: "a" is valid under env0 and ["a", "a"] constructs. -/
theorem newReflector_duplicate_name_ok_witness :
    NewReflector env0 ["a", "a"]
      = Except.ok { interfaces := ["a", "a"], conns := [] } :=
  newReflector_duplicate_name_ok env0 "a" (by decide)

/- ===== Startup theorems (C4) ===== -/

/-- Inserting a name that is not yet a key appends the binding. -/
theorem mapInsert_fresh : ∀ (m : List (String × Nat)) (name : String)
    (sock : Nat), name ∉ m.map Prod.fst →
    mapInsert m name sock = m ++ [(name, sock)]
  | [], _, _, _ => rfl
  | (k, v) :: rest, name, sock, h => by
      have hk : ¬ k = name := by
        intro hkn
        exact h (by simp [hkn])
      have ih := mapInsert_fresh rest name sock (fun hmem => h (by simp [hmem]))
      simp [mapInsert, hk, ih]

/-- C4 counterexample: the claim as stated is false for the reachable input
["a", "a", "b"] (duplicate names pass construction): "a" joins twice, the
second socket overwrites the first in the name-keyed conns map, "b" fails,
and Stop closes only the surviving socket — socket 0, previously joined on
that attempt, is opened but never released. -/
theorem start_duplicate_leak_counterexample :
    (startReflector join0 ["a", "a", "b"]).startError = some "b" ∧
    0 ∈ (startReflector join0 ["a", "a", "b"]).opened ∧
    0 ∉ (startReflector join0 ["a", "a", "b"]).closed ∧
    (startReflector join0 ["a", "a", "b"]).closed = [1] := by decide

/-- The Start loop on a pairwise-fresh name list containing a failure,
assuming the sockets in the conns map are exactly the sockets opened so far:
the run ends with the first failing name as the error, an empty conns map,
and every opened socket closed. -/
theorem startGo_fail_nodup (join : String → JoinOutcome) :
    ∀ (l : List String) (conns : List (String × Nat)) (opened : List Nat)
      (next : Nat) (fn : String) (rest : List String),
    l.dropWhile (fun n => decide (join n = JoinOutcome.ok)) = fn :: rest →
    (∀ n ∈ l, n ∉ conns.map Prod.fst) →
    l.Nodup →
    conns.map Prod.snd = opened →
    (startGo join conns opened next l).startError = some fn ∧
    (startGo join conns opened next l).conns = [] ∧
    (∀ s ∈ (startGo join conns opened next l).opened,
      s ∈ (startGo join conns opened next l).closed)
  | [], _, _, _, _, _, h, _, _, _ => by simp [List.dropWhile] at h
  | name :: l', conns, opened, next, fn, rest, h, hfresh, hnd, hsnd => by
      cases hj : join name with
      | ok =>
          rw [List.dropWhile_cons, if_pos (by simp [hj])] at h
          have hname : name ∉ conns.map Prod.fst := hfresh name (by simp)
          have hins := mapInsert_fresh conns name next hname
          have hfresh' : ∀ n ∈ l',
              n ∉ (mapInsert conns name next).map Prod.fst := by
            intro n hn
            rw [hins]
            simp only [List.map_append, List.mem_append]
            rintro (hc | hc)
            · exact hfresh n (by simp [hn]) hc
            · simp only [List.map_cons, List.map_nil, List.mem_singleton] at hc
              subst hc
              exact (List.nodup_cons.mp hnd).1 hn
          have hsnd' : (mapInsert conns name next).map Prod.snd
              = opened ++ [next] := by
            rw [hins]
            simp [hsnd]
          have ih := startGo_fail_nodup join l' (mapInsert conns name next)
            (opened ++ [next]) (next + 1) fn rest h hfresh'
            (List.nodup_cons.mp hnd).2 hsnd'
          simpa [startGo, hj] using ih
      | listenFail =>
          rw [List.dropWhile_cons, if_neg (by simp [hj])] at h
          injection h with hfn hrest
          subst hfn
          refine ⟨by simp [startGo, hj], by simp [startGo, hj], ?_⟩
          intro s hs
          simp only [startGo, hj] at hs ⊢
          rw [hsnd]
          exact hs
      | bufferFail =>
          rw [List.dropWhile_cons, if_neg (by simp [hj])] at h
          injection h with hfn hrest
          subst hfn
          refine ⟨by simp [startGo, hj], by simp [startGo, hj], ?_⟩
          intro s hs
          simp only [startGo, hj, List.mem_append, List.mem_singleton] at hs
          simp only [startGo, hj, List.mem_cons]
          rcases hs with hs | hs
          · exact Or.inr (hsnd ▸ hs)
          · exact Or.inl hs

/-- C4 amended: for pairwise-distinct interface names, Start is
all-or-nothing: if joining fails on some interface (the first failure being
fn), Start returns an error, the conns map is left empty, and every socket
opened on that attempt — in particular every previously joined one — has
been closed. With a duplicated name the overwritten socket leaks. -/
theorem start_all_or_nothing (join : String → JoinOutcome)
    (ifaces : List String) (fn : String) (rest : List String)
    (hnd : ifaces.Nodup)
    (h : ifaces.dropWhile (fun n => decide (join n = JoinOutcome.ok))
      = fn :: rest) :
    (startReflector join ifaces).startError = some fn ∧
    (startReflector join ifaces).conns = [] ∧
    (∀ s ∈ (startReflector join ifaces).opened,
      s ∈ (startReflector join ifaces).closed) :=
  startGo_fail_nodup join ifaces [] [] 0 fn rest h (by simp) hnd rfl

/-- C4 witness: under join0 with distinct interfaces ["a", "b", "c"], "a"
joins as socket 0, "b" fails, and the attempt ends with an error, no conns,
and every opened socket closed. -/
theorem start_all_or_nothing_witness :
    (startReflector join0 ["a", "b", "c"]).startError = some "b" ∧
    (startReflector join0 ["a", "b", "c"]).conns = [] ∧
    (∀ s ∈ (startReflector join0 ["a", "b", "c"]).opened,
      s ∈ (startReflector join0 ["a", "b", "c"]).closed) :=
  start_all_or_nothing join0 ["a", "b", "c"] "b" ["c"] (by decide) (by decide)

/- ===== Fan-out theorems (C1, C6) ===== -/

/-- When every write succeeds, the fan-out loop writes the packet once to each
non-source connection, in order. -/
theorem reflectGo_all_ok (outcome : String → WriteOutcome) (src : String)
    (pkt : List Nat) :
    ∀ (l : List String), (∀ n ∈ l, outcome n = WriteOutcome.ok) →
    reflectGo outcome src pkt l =
      (l.filter (fun n => decide (¬ n = src))).map
        (fun n => { dst := n, payload := pkt, addr := dstAddr })
  | [], _ => rfl
  | name :: rest, hok => by
      have hn := hok name (by simp)
      have ih := reflectGo_all_ok outcome src pkt rest
        (fun n hmem => hok n (by simp [hmem]))
      by_cases hs : name = src
      · simp [reflectGo, hs, ih, List.filter_cons]
      · simp [reflectGo, hs, hn, ih, List.filter_cons]

/-- C1: a reflect call with cancellation unfired and all writes succeeding
performs exactly one write of the unmodified payload, addressed to the mDNS
multicast address/port, on every joined socket other than the ingress one,
and never writes to the ingress socket. -/
theorem reflect_fanout (conns : List String) (src : String) (pkt : List Nat)
    (outcome : String → WriteOutcome)
    (hok : ∀ n ∈ conns, outcome n = WriteOutcome.ok) :
    reflect false outcome conns src pkt =
      (conns.filter (fun n => decide (¬ n = src))).map
        (fun n => { dst := n, payload := pkt, addr := dstAddr }) ∧
    ∀ w ∈ reflect false outcome conns src pkt, w.dst ≠ src := by
  have hrun : reflect false outcome conns src pkt =
      (conns.filter (fun n => decide (¬ n = src))).map
        (fun n => { dst := n, payload := pkt, addr := dstAddr }) := by
    simp only [reflect, Bool.false_eq_true, if_false]
    exact reflectGo_all_ok outcome src pkt conns hok
  refine ⟨hrun, ?_⟩
  intro w hw
  rw [hrun] at hw
  simp only [List.mem_map, List.mem_filter] at hw
  obtain ⟨n, ⟨_, hne⟩, hweq⟩ := hw
  rw [← hweq]
  simpa using hne

/-- C1 witness: with conns {A, B, C} all joined and a fresh packet arriving on
A, reflect writes the payload to B and C at the mDNS address and never back
to A. -/
theorem reflect_fanout_witness :
    reflect false (fun _ => WriteOutcome.ok) ["A", "B", "C"] "A" [1, 2] =
      ((["A", "B", "C"] : List String).filter (fun n => decide (¬ n = "A"))).map
        (fun n => { dst := n, payload := [1, 2], addr := dstAddr }) ∧
    ∀ w ∈ reflect false (fun _ => WriteOutcome.ok) ["A", "B", "C"] "A" [1, 2],
      w.dst ≠ "A" :=
  reflect_fanout ["A", "B", "C"] "A" [1, 2] (fun _ => WriteOutcome.ok)
    (fun _ _ => rfl)

/-- Write errors with the context live do not change which writes the fan-out
loop attempts. -/
theorem reflectGo_no_cancel (outcome : String → WriteOutcome) (src : String)
    (pkt : List Nat) :
    ∀ (l : List String), (∀ n ∈ l, outcome n ≠ WriteOutcome.errCancelled) →
    reflectGo outcome src pkt l
      = reflectGo (fun _ => WriteOutcome.ok) src pkt l
  | [], _ => rfl
  | name :: rest, h => by
      have hn := h name (by simp)
      have ih := reflectGo_no_cancel outcome src pkt rest
        (fun n hmem => h n (by simp [hmem]))
      by_cases hs : name = src
      · simp [reflectGo, hs, ih]
      · cases hj : outcome name with
        | ok => simp [reflectGo, hs, hj, ih]
        | errLive => simp [reflectGo, hs, hj, ih]
        | errCancelled => exact absurd hj hn

/-- C6: during fan-out without cancellation, a write error on one destination
does not change the write attempts made to the others — the attempt list is
the same as in an error-free run; conversely, the fan-out deviates from that
full run only if some destination's write error coincided with
cancellation. -/
theorem reflect_write_error_isolated (conns : List String) (src : String)
    (pkt : List Nat) (outcome : String → WriteOutcome) :
    ((∀ n ∈ conns, outcome n ≠ WriteOutcome.errCancelled) →
      reflect false outcome conns src pkt
        = reflect false (fun _ => WriteOutcome.ok) conns src pkt) ∧
    (reflect false outcome conns src pkt
        ≠ reflect false (fun _ => WriteOutcome.ok) conns src pkt →
      ∃ n ∈ conns, outcome n = WriteOutcome.errCancelled) := by
  have main : (∀ n ∈ conns, outcome n ≠ WriteOutcome.errCancelled) →
      reflect false outcome conns src pkt
        = reflect false (fun _ => WriteOutcome.ok) conns src pkt := by
    intro h
    simp only [reflect, Bool.false_eq_true, if_false]
    exact reflectGo_no_cancel outcome src pkt conns h
  refine ⟨main, ?_⟩
  intro hne
  by_contra hnex
  push_neg at hnex
  exact hne (main hnex)

/-- C6 witness: with conns {A, B, C}, source A, and the write to B failing
(context live), the attempt list equals the error-free run — the write to C
is still attempted. -/
theorem reflect_write_error_isolated_witness :
    reflect false outcomeB ["A", "B", "C"] "A" [7]
      = reflect false (fun _ => WriteOutcome.ok) ["A", "B", "C"] "A" [7] :=
  (reflect_write_error_isolated ["A", "B", "C"] "A" [7] outcomeB).1 (by decide)

/- ===== Cancellation theorems (C5) ===== -/

/-- C5: after cancellation no reflection work is scheduled: a loop iteration
that observes cancellation at loop-top exits; one that observes cancellation
after a read returns never schedules; and a reflect invocation that observes
cancellation at entry performs no writes at all. -/
theorem no_work_after_cancellation :
    (∀ (read : ReadResult) (c2 dup : Bool) (ifc : String),
      receiveStep true read c2 dup ifc = LoopAction.exit) ∧
    (∀ (n : Nat) (p : List Nat) (dup : Bool) (ifc s : String) (q : List Nat),
      receiveStep false (ReadResult.dataRead n p) true dup ifc
        ≠ LoopAction.schedule s q) ∧
    (∀ (outcome : String → WriteOutcome) (conns : List String) (src : String)
      (pkt : List Nat), reflect true outcome conns src pkt = []) := by
  refine ⟨?_, ?_, ?_⟩
  · intro read c2 dup ifc
    simp [receiveStep]
  · intro n p dup ifc s q
    by_cases h0 : n = 0 <;> simp [receiveStep, h0]
  · intro outcome conns src pkt
    simp [reflect]

end MDNSReflector
